import Mathlib

/-!
Verification of `real_time_correlative_scan_matcher_2d.cc` (cartographer fork).

The source file implements the real-time correlative scan matcher: an
exhaustive search over candidate pose offsets scored against either a
probability grid or a TSDF, plus two PCL-based fine-alignment variants.
Definitions below are shallow embeddings of the functions in that file.
Collaborators that live outside the file (the `SearchParameters` and
`Candidate2D` constructors, grid cell accessors, PCL registration) are
modelled from the specification, as noted in their doc comments.
-/

namespace Carto

/-- A discrete scan is the list of integer grid-cell coordinates of one
rotated, translated scan (`DiscreteScan2D` in the source). -/
abbrev DiscreteScan2D := List (Int × Int)

/-- Modelled from the spec: a probability grid exposes, per cell, an
occupancy probability (`GetProbability` in the external `ProbabilityGrid`
class, outside this file). -/
structure ProbabilityGrid where
  prob : Int × Int → ℝ

/-- Modelled from the spec: a TSDF exposes, per cell, a signed distance and
a confidence weight plus a fixed maximum correspondence cost
(`GetTSDAndWeight` / `GetMaxCorrespondenceCost` in the external `TSDF2D`
class, outside this file). -/
structure TSDF2D where
  maxCorrespondenceCost : ℝ
  tsdAndWeight : Int × Int → ℝ × ℝ

/-- The two grid variants dispatched on by `ScoreCandidates`. -/
inductive GridModel where
  | probability (g : ProbabilityGrid)
  | tsdf (t : TSDF2D)

/-- The running pair (`candidate_score`, `summed_weight`) of the TSDF scoring
loop in `ComputeCandidateScore(const TSDF2D&, ...)` (source lines 43-56):
for each scan cell shifted by the candidate offset, accumulate the
normalized TSD score times the cell weight, and the weight itself. -/
noncomputable def tsdfAccumulate (t : TSDF2D) (scan : DiscreteScan2D) (xo yo : Int) : ℝ × ℝ :=
  scan.foldl (fun a p =>
    let tw := t.tsdAndWeight (p.1 + xo, p.2 + yo)
    (a.1 + (t.maxCorrespondenceCost - |tw.1|) / t.maxCorrespondenceCost * tw.2,
     a.2 + tw.2)) (0, 0)

/-- `ComputeCandidateScore(const TSDF2D&, ...)` (source lines 40-61): the
accumulated pair is turned into a score; a zero summed weight returns 0
early, otherwise the weighted mean is returned after `CHECK_GE(score, 0)`
(`none` models the fatal CHECK abort). -/
noncomputable def computeCandidateScoreTSDF (t : TSDF2D) (scan : DiscreteScan2D)
    (xo yo : Int) : Option ℝ :=
  let acc := tsdfAccumulate t scan xo yo
  if acc.2 = 0 then some 0
  else if 0 ≤ acc.1 / acc.2 then some (acc.1 / acc.2) else none

/-- The value computed by `ComputeCandidateScore(const ProbabilityGrid&, ...)`
(source lines 66-74): sum of the occupancy probabilities at the shifted scan
cells, divided by the number of scan cells. -/
noncomputable def probRawScore (g : ProbabilityGrid) (scan : DiscreteScan2D)
    (xo yo : Int) : ℝ :=
  (scan.foldl (fun a p => a + g.prob (p.1 + xo, p.2 + yo)) 0) / (scan.length : ℝ)

/-- `ComputeCandidateScore(const ProbabilityGrid&, ...)` (source lines 63-77):
the mean probability is returned after `CHECK_GT(score, 0)` (`none` models
the fatal CHECK abort when the mean is not strictly positive). -/
noncomputable def computeCandidateScoreProbabilityGrid (g : ProbabilityGrid)
    (scan : DiscreteScan2D) (xo yo : Int) : Option ℝ :=
  let s := probRawScore g scan xo yo
  if 0 < s then some s else none

/-- The list of shifted cell indices (`proposed_xy_index` in the source,
lines 46-47 and 68-69) read by either scoring loop for a given discrete scan
and candidate offset. -/
def proposedIndices (scan : DiscreteScan2D) (xo yo : Int) : List (Int × Int) :=
  scan.map fun p => (p.1 + xo, p.2 + yo)

/-- Folding the additive probability loop equals the mapped sum. -/
theorem foldl_add_eq_sum (f : Int × Int → ℝ) (scan : List (Int × Int)) (init : ℝ) :
    scan.foldl (fun a p => a + f p) init = init + (scan.map f).sum := by
  induction scan generalizing init with
  | nil => simp
  | cons p ps ih => simp [List.foldl_cons, ih, add_assoc]

/-- Folding the TSDF pair loop equals the pair of mapped sums. -/
theorem foldl_pair_eq_sum (f g : Int × Int → ℝ) (scan : List (Int × Int))
    (s w : ℝ) :
    scan.foldl (fun a p => (a.1 + f p, a.2 + g p)) (s, w) =
      (s + (scan.map f).sum, w + (scan.map g).sum) := by
  induction scan generalizing s w with
  | nil => simp
  | cons p ps ih => simp [List.foldl_cons, ih, add_assoc]

/-- The TSDF accumulator in closed form: the weighted sum of normalized TSD
scores over the shifted cells, paired with the total weight. -/
theorem tsdfAccumulate_eq_sum (t : TSDF2D) (scan : DiscreteScan2D) (xo yo : Int) :
    tsdfAccumulate t scan xo yo =
      ((scan.map fun p =>
          (t.maxCorrespondenceCost - |(t.tsdAndWeight (p.1 + xo, p.2 + yo)).1|) /
            t.maxCorrespondenceCost * (t.tsdAndWeight (p.1 + xo, p.2 + yo)).2).sum,
       (scan.map fun p => (t.tsdAndWeight (p.1 + xo, p.2 + yo)).2).sum) := by
  have h := foldl_pair_eq_sum
    (fun p => (t.maxCorrespondenceCost - |(t.tsdAndWeight (p.1 + xo, p.2 + yo)).1|) /
        t.maxCorrespondenceCost * (t.tsdAndWeight (p.1 + xo, p.2 + yo)).2)
    (fun p => (t.tsdAndWeight (p.1 + xo, p.2 + yo)).2) scan 0 0
  simpa [tsdfAccumulate] using h

/-- Modelled from the spec: per-scan-index linear offset bounds in integer
grid-cell units (spec §3, `SearchParameters::LinearBounds` lives in a header
outside this file). -/
structure LinearBounds where
  min_x : Int
  max_x : Int
  min_y : Int
  max_y : Int
deriving DecidableEq, Inhabited

/-- Modelled from the spec: `SearchParameters` (spec §3) holds the number of
discretized rotations, the angular step, the grid resolution and the
per-scan-index linear bounds; its construction (window trimming, spec §4.1
and §9) lives in an external collaborator outside this file. -/
structure SearchParameters where
  num_scans : Nat
  angular_perturbation_step_size : ℝ
  resolution : ℝ
  linear_bounds : List LinearBounds

/-- A candidate pose hypothesis (`Candidate2D`, declared in a header outside
this file). -/
structure Candidate2D where
  scan_index : Nat
  x_index_offset : Int
  y_index_offset : Int
  x : ℝ
  y : ℝ
  orientation : ℝ
  score : ℝ
deriving Inhabited

/-- Modelled from the spec: the `Candidate2D` constructor (outside this file)
precomputes the metric offset as integer offset times grid resolution and the
orientation as the scan index's rotation angle, with `num_scans` odd and
centered on zero rotation (spec §3, §4.2, §4.3); the score starts at zero. -/
noncomputable def mkCandidate (scan_index : Nat) (x_index_offset y_index_offset : Int)
    (sp : SearchParameters) : Candidate2D :=
  { scan_index := scan_index
    x_index_offset := x_index_offset
    y_index_offset := y_index_offset
    x := (x_index_offset : ℝ) * sp.resolution
    y := (y_index_offset : ℝ) * sp.resolution
    orientation := ((scan_index : Int) - ((sp.num_scans - 1) / 2 : Nat) : ℤ) *
      sp.angular_perturbation_step_size
    score := 0 }

/-- The inclusive integer range `[lo, hi]`, the values taken by a C++ loop
`for (int v = lo; v <= hi; ++v)`. -/
def intRange (lo hi : Int) : List Int :=
  (List.range (hi + 1 - lo).toNat).map fun k : Nat => lo + (k : Int)

theorem mem_intRange (lo hi v : Int) : v ∈ intRange lo hi ↔ lo ≤ v ∧ v ≤ hi := by
  constructor
  · intro hv
    rcases List.mem_map.mp hv with ⟨k, hk, hkv⟩
    have hklt : k < (hi + 1 - lo).toNat := List.mem_range.mp hk
    omega
  · intro hv
    refine List.mem_map.mpr ⟨(v - lo).toNat, List.mem_range.mpr ?_, ?_⟩ <;> omega

theorem length_intRange (lo hi : Int) : (intRange lo hi).length = (hi + 1 - lo).toNat := by
  rw [intRange, List.length_map, List.length_range]

/-- The precomputed total `num_candidates` of
`GenerateExhaustiveSearchCandidates` (source lines 88-98): the sum over scan
indices of `(max_x - min_x + 1) * (max_y - min_y + 1)`. -/
def numSearchCandidates (sp : SearchParameters) : Int :=
  ((List.range sp.num_scans).map fun i =>
    let b := sp.linear_bounds.getD i default
    (b.max_x - b.min_x + 1) * (b.max_y - b.min_y + 1)).sum

/-- The candidate enumeration of `GenerateExhaustiveSearchCandidates`
(source lines 101-114): rotation-index-major, then x offset, then y offset,
each loop inclusive of its bounds. -/
noncomputable def generateExhaustiveSearchCandidates (sp : SearchParameters) :
    List Candidate2D :=
  (List.range sp.num_scans).flatMap fun scan_index =>
    (intRange (sp.linear_bounds.getD scan_index default).min_x
        (sp.linear_bounds.getD scan_index default).max_x).flatMap fun xo =>
      (intRange (sp.linear_bounds.getD scan_index default).min_y
          (sp.linear_bounds.getD scan_index default).max_y).map fun yo =>
        mkCandidate scan_index xo yo sp

/-- Membership in the exhaustive enumeration: exactly the candidates built
from a scan index below `num_scans` and offsets inside that index's bounds. -/
theorem mem_generateExhaustiveSearchCandidates (sp : SearchParameters) (c : Candidate2D) :
    c ∈ generateExhaustiveSearchCandidates sp ↔
      ∃ i : Nat, ∃ xo yo : Int, i < sp.num_scans ∧
        (sp.linear_bounds.getD i default).min_x ≤ xo ∧
        xo ≤ (sp.linear_bounds.getD i default).max_x ∧
        (sp.linear_bounds.getD i default).min_y ≤ yo ∧
        yo ≤ (sp.linear_bounds.getD i default).max_y ∧
        c = mkCandidate i xo yo sp := by
  simp only [generateExhaustiveSearchCandidates, List.mem_flatMap, List.mem_map,
    List.mem_range, mem_intRange]
  constructor
  · rintro ⟨i, hi, xo, ⟨hx1, hx2⟩, yo, ⟨hy1, hy2⟩, rfl⟩
    exact ⟨i, xo, yo, hi, hx1, hx2, hy1, hy2, rfl⟩
  · rintro ⟨i, xo, yo, hi, hx1, hx2, hy1, hy2, rfl⟩
    exact ⟨i, hi, xo, ⟨hx1, hx2⟩, yo, ⟨hy1, hy2⟩, rfl⟩

/-- `common::Pow2` (external helper): the square of its argument. -/
def pow2 (a : ℝ) : ℝ := a * a

/-- `std::hypot`: the Euclidean norm of `(x, y)`. -/
noncomputable def hypot (x y : ℝ) : ℝ := Real.sqrt (x * x + y * y)

/-- The raw candidate score used by `ScoreCandidates` (source lines 271-284):
the value computed by the grid-variant-specific `ComputeCandidateScore`
overload, before the fatal CHECK is taken into account. -/
noncomputable def rawScore (grid : GridModel) (scan : DiscreteScan2D) (xo yo : Int) : ℝ :=
  match grid with
  | .probability g => probRawScore g scan xo yo
  | .tsdf t =>
    let acc := tsdfAccumulate t scan xo yo
    if acc.2 = 0 then 0 else acc.1 / acc.2

/-- The condition under which the per-candidate fatal CHECK inside
`ComputeCandidateScore` passes: `CHECK_GT(score, 0)` for a probability grid
(source line 75), `CHECK_GE(score, 0)` after the zero-weight early return for
a TSDF (source lines 57-59). -/
def scoreCheckOk (grid : GridModel) (scan : DiscreteScan2D) (xo yo : Int) : Prop :=
  match grid with
  | .probability g => 0 < probRawScore g scan xo yo
  | .tsdf t =>
    let acc := tsdfAccumulate t scan xo yo
    acc.2 = 0 ∨ 0 ≤ acc.1 / acc.2

/-- All per-candidate CHECKs of a `ScoreCandidates` pass over a candidate
list, in which case no fatal abort happens during scoring. -/
def scoreChecksPass (grid : GridModel) (discrete_scans : List DiscreteScan2D)
    (candidates : List Candidate2D) : Prop :=
  ∀ c ∈ candidates, scoreCheckOk grid (discrete_scans.getD c.scan_index [])
    c.x_index_offset c.y_index_offset

/-- The immutable configuration of the matcher
(`proto::RealTimeCorrelativeScanMatcherOptions`). -/
structure Options where
  linear_search_window : ℝ
  angular_search_window : ℝ
  translation_delta_cost_weight : ℝ
  rotation_delta_cost_weight : ℝ

/-- `RealTimeCorrelativeScanMatcher2D::ScoreCandidates` (source lines
266-291): each candidate's score becomes the grid-variant raw score times
`exp(-Pow2(hypot(x, y) * translation_delta_cost_weight +
|orientation| * rotation_delta_cost_weight))`. -/
noncomputable def candidateScoreValue (opts : Options) (grid : GridModel)
    (discrete_scans : List DiscreteScan2D) (c : Candidate2D) : ℝ :=
  rawScore grid (discrete_scans.getD c.scan_index []) c.x_index_offset
      c.y_index_offset *
    Real.exp (-pow2 (hypot c.x c.y * opts.translation_delta_cost_weight +
      |c.orientation| * opts.rotation_delta_cost_weight))

/-- The loop of `ScoreCandidates`, updating every candidate's score in
enumeration order. -/
noncomputable def scoreCandidates (opts : Options) (grid : GridModel)
    (discrete_scans : List DiscreteScan2D) (candidates : List Candidate2D) :
    List Candidate2D :=
  candidates.map fun c => { c with score := candidateScoreValue opts grid discrete_scans c }

/-- One step of `std::max_element` with `Candidate2D::operator<` (which
compares scores, declared in a header outside this file): the current best is
replaced only by a strictly greater score, so the first maximum wins. -/
noncomputable def maxStep (b c : Candidate2D) : Candidate2D :=
  if b.score < c.score then c else b

/-- `*std::max_element(candidates.begin(), candidates.end())` (source lines
144-145): `none` models the undefined dereference on an empty range. -/
noncomputable def bestCandidate : List Candidate2D → Option Candidate2D
  | [] => none
  | c :: cs => some (cs.foldl maxStep c)

/-- A rigid 2D transform (`transform::Rigid2d`), stored as a translation and
a rotation angle; `Eigen::Rotation2Dd` composition adds angles. -/
structure Rigid2d where
  x : ℝ
  y : ℝ
  theta : ℝ

/-- SE(2) composition `a * b`: apply `b`, then `a` (rotate `b`'s translation
by `a`'s rotation and add `a`'s translation; angles add). -/
noncomputable def Rigid2d.comp (a b : Rigid2d) : Rigid2d :=
  { x := a.x + Real.cos a.theta * b.x - Real.sin a.theta * b.y
    y := a.y + Real.sin a.theta * b.x + Real.cos a.theta * b.y
    theta := a.theta + b.theta }

/-- The image of a planar point under a rigid transform. -/
noncomputable def Rigid2d.apply (a : Rigid2d) (v : ℝ × ℝ) : ℝ × ℝ :=
  (a.x + Real.cos a.theta * v.1 - Real.sin a.theta * v.2,
   a.y + Real.sin a.theta * v.1 + Real.cos a.theta * v.2)

/-- Outcome of one `Match` call: a normal return, a fatal `CHECK` abort, or
undefined behavior (dereference of an invalid pointer or iterator). -/
inductive MatchOutcome (α : Type) where
  | fatalCheck
  | undefinedBehavior
  | ok (value : α)

open Classical

/-- `RealTimeCorrelativeScanMatcher2D::Match` for the exhaustive correlative
search (source lines 119-151). `outNull` is whether the output pose pointer
is null, checked fatally first (line 123). The construction of
`SearchParameters` and the rotated/discretized scans (lines 125-139) lives in
external collaborators (spec §4.1, §4.2, §9), so the search parameters and
discrete scans are taken as inputs here. Then the candidates are enumerated
(with the `CHECK_EQ` count self-check of line 115), scored (with the fatal
per-candidate CHECKs), the best candidate is selected by `std::max_element`,
and the refined pose adds the winner's metric offset to the initial
translation and composes the rotations (lines 146-150). -/
noncomputable def matchExhaustive (opts : Options) (outNull : Bool)
    (initial : Rigid2d) (sp : SearchParameters)
    (discrete_scans : List DiscreteScan2D) (grid : GridModel) :
    MatchOutcome (ℝ × Rigid2d) :=
  if outNull then .fatalCheck
  else
    let candidates := generateExhaustiveSearchCandidates sp
    if ((candidates.length : Int) = numSearchCandidates sp) ∧
        scoreChecksPass grid discrete_scans candidates then
      match bestCandidate (scoreCandidates opts grid discrete_scans candidates) with
      | none => .undefinedBehavior
      | some best =>
        .ok (best.score,
          { x := initial.x + best.x, y := initial.y + best.y,
            theta := initial.theta + best.orientation })
    else .fatalCheck

/-- A 3D sensor point (`sensor::PointCloud::PointType`). -/
structure Point3 where
  x : ℝ
  y : ℝ
  z : ℝ

/-- A point cloud, as an ordered list of points. -/
abbrev PointCloud := List Point3

/-- The voxel-filter leaf size of the closest-point fine aligner
(source line 162). -/
noncomputable def icpLeafSize : ℝ := 0.02

/-- The voxel-filter leaf size of the distribution-based fine aligner
(source line 216). -/
noncomputable def ndtLeafSize : ℝ := 0.05

/-- The per-point transformation loop shared by both fine-aligner variants
(source lines 165-172 and 219-226): each scan point's planar coordinates are
mapped through the full initial pose and its out-of-plane coordinate is set
to zero. -/
noncomputable def flattenAndTransform (initial : Rigid2d) (pc : PointCloud) : PointCloud :=
  pc.map fun p =>
    let q := initial.apply (p.x, p.y)
    { x := q.1, y := q.2, z := 0 }

/-- `RealTimeCorrelativeScanMatcher2D::Match` for the closest-point fine
aligner (source lines 153-205). The PCL voxel filter and ICP registration
are external library calls, taken here as function parameters:
`registration source target` returns the delta transform read off the final
transformation matrix together with the fitness score. The source performs
no null check on the output pointer; writing the result through a null
pointer (line 203), after registration has run, is undefined behavior. -/
noncomputable def matchFineICP
    (registration : PointCloud → PointCloud → Rigid2d × ℝ)
    (voxelFilter : ℝ → PointCloud → PointCloud) (outNull : Bool)
    (initial : Rigid2d) (point_cloud : PointCloud)
    (submap_points : PointCloud) : MatchOutcome (ℝ × Rigid2d) :=
  let target := voxelFilter icpLeafSize submap_points
  let source_cloud := flattenAndTransform initial point_cloud
  let res := registration source_cloud target
  if outNull then .undefinedBehavior else .ok (res.2, res.1.comp initial)

/-- `RealTimeCorrelativeScanMatcher2D::Match` for the distribution-based fine
aligner (source lines 207-264): identical structure to the closest-point
variant but with the coarser voxel leaf size and the NDT registration call;
it also performs no null check on the output pointer (the write on line 262
through a null pointer is undefined behavior). -/
noncomputable def matchFineNDT
    (registration : PointCloud → PointCloud → Rigid2d × ℝ)
    (voxelFilter : ℝ → PointCloud → PointCloud) (outNull : Bool)
    (initial : Rigid2d) (point_cloud : PointCloud)
    (submap_points : PointCloud) : MatchOutcome (ℝ × Rigid2d) :=
  let target := voxelFilter ndtLeafSize submap_points
  let source_cloud := flattenAndTransform initial point_cloud
  let res := registration source_cloud target
  if outNull then .undefinedBehavior else .ok (res.2, res.1.comp initial)

/-- The penalty factor as the spec's words state it, for comparison with the
source: `exp(-((offset_distance)^2 * translation_weight +
|orientation| * rotation_weight))`, the distance squared rather than the
whole weighted sum. -/
noncomputable def specPenaltyFactor (opts : Options) (c : Candidate2D) : ℝ :=
  Real.exp (-(pow2 (hypot c.x c.y) * opts.translation_delta_cost_weight +
    |c.orientation| * opts.rotation_delta_cost_weight))

/-- The `max_element` fold selects the first maximal candidate: the list
splits around the selected candidate, everything strictly before it scores
strictly less, and nothing scores more. -/
theorem foldl_maxStep_spec (cs : List Candidate2D) (c : Candidate2D) :
    ∃ l₁ l₂, c :: cs = l₁ ++ (cs.foldl maxStep c) :: l₂ ∧
      (∀ y ∈ l₁, y.score < (cs.foldl maxStep c).score) ∧
      ∀ y ∈ c :: cs, y.score ≤ (cs.foldl maxStep c).score := by
  induction cs generalizing c with
  | nil =>
    refine ⟨[], [], rfl, by simp, ?_⟩
    intro y hy
    rcases List.mem_cons.mp hy with rfl | hy'
    · exact le_refl _
    · simp at hy'
  | cons x cs ih =>
    rw [List.foldl_cons]
    obtain ⟨m₁, m₂, heq, hlt, hle⟩ := ih (maxStep c x)
    by_cases hc : c.score < x.score
    · have hms : maxStep c x = x := by simp [maxStep, hc]
      rw [hms] at heq hlt hle
      have hxb : x.score ≤ (cs.foldl maxStep x).score :=
        hle x (List.mem_cons_self _ _)
      refine ⟨c :: m₁, m₂, ?_, ?_, ?_⟩
      · rw [hms, List.cons_append, ← heq]
      · intro y hy
        rcases List.mem_cons.mp hy with rfl | hy'
        · exact lt_of_lt_of_le hc (by rw [hms]; exact hxb)
        · rw [hms]; exact hlt y hy'
      · intro y hy
        rw [hms]
        rcases List.mem_cons.mp hy with rfl | hy'
        · exact le_of_lt (lt_of_lt_of_le hc hxb)
        · exact hle y hy'
    · have hms : maxStep c x = c := by simp [maxStep, hc]
      rw [hms] at heq hlt hle
      have hxc : x.score ≤ c.score := not_lt.mp hc
      have hcb : c.score ≤ (cs.foldl maxStep c).score :=
        hle c (List.mem_cons_self _ _)
      cases m₁ with
      | nil =>
        have hc' : c = cs.foldl maxStep c := by
          have := heq
          simp only [List.nil_append] at this
          exact (List.cons.injEq _ _ _ _ ▸ this).1
        refine ⟨[], x :: cs, ?_, by simp, ?_⟩
        · rw [hms, List.nil_append, ← hc']
        · intro y hy
          rw [hms]
          rcases List.mem_cons.mp hy with rfl | hy'
          · exact hcb
          · rcases List.mem_cons.mp hy' with rfl | hy''
            · exact le_trans hxc hcb
            · exact hle y (List.mem_cons_of_mem _ hy'')
      | cons c' m₁' =>
        have heq' : c = c' ∧ cs = m₁' ++ (cs.foldl maxStep c) :: m₂ := by
          have := heq
          rw [List.cons_append] at this
          exact ⟨(List.cons.injEq _ _ _ _ ▸ this).1,
            (List.cons.injEq _ _ _ _ ▸ this).2⟩
        obtain ⟨rfl, hcs⟩ := heq'
        have hclt : c.score < (cs.foldl maxStep c).score :=
          hlt c (List.mem_cons_self _ _)
        refine ⟨c :: x :: m₁', m₂, ?_, ?_, ?_⟩
        · rw [hms]
          rw [List.cons_append, List.cons_append, ← hcs]
        · intro y hy
          rw [hms]
          rcases List.mem_cons.mp hy with rfl | hy'
          · exact hclt
          · rcases List.mem_cons.mp hy' with rfl | hy''
            · exact lt_of_le_of_lt hxc hclt
            · exact hlt y (List.mem_cons_of_mem _ hy'')
        · intro y hy
          rw [hms]
          rcases List.mem_cons.mp hy with rfl | hy'
          · exact le_of_lt hclt
          · rcases List.mem_cons.mp hy' with rfl | hy''
            · exact le_trans hxc (le_of_lt hclt)
            · exact hle y (List.mem_cons_of_mem _ hy'')

/-- `bestCandidate` on a nonempty list returns the first maximal candidate. -/
theorem bestCandidate_spec (l : List Candidate2D) (b : Candidate2D)
    (h : bestCandidate l = some b) :
    ∃ l₁ l₂, l = l₁ ++ b :: l₂ ∧
      (∀ y ∈ l₁, y.score < b.score) ∧ ∀ y ∈ l, y.score ≤ b.score := by
  cases l with
  | nil => simp [bestCandidate] at h
  | cons c cs =>
    have hb : cs.foldl maxStep c = b := by
      simpa [bestCandidate] using h
    obtain ⟨l₁, l₂, heq, hlt, hle⟩ := foldl_maxStep_spec cs c
    rw [hb] at heq hlt hle
    exact ⟨l₁, l₂, heq, hlt, hle⟩

/-- Inverting a successful exhaustive `Match`: the output pointer was not
null, a best candidate was selected from the scored enumeration, the
returned score is its score, and the pose adds its metric offset to the
initial translation and its orientation to the initial rotation. -/
theorem matchExhaustive_ok_inv (opts : Options) (outNull : Bool)
    (initial : Rigid2d) (sp : SearchParameters)
    (discrete_scans : List DiscreteScan2D) (grid : GridModel) (s : ℝ)
    (pose : Rigid2d)
    (h : matchExhaustive opts outNull initial sp discrete_scans grid =
      .ok (s, pose)) :
    outNull = false ∧
      ∃ best, bestCandidate (scoreCandidates opts grid discrete_scans
          (generateExhaustiveSearchCandidates sp)) = some best ∧
        s = best.score ∧
        pose = { x := initial.x + best.x, y := initial.y + best.y,
                 theta := initial.theta + best.orientation } := by
  by_cases hn : outNull
  · rw [matchExhaustive, if_pos hn] at h
    exact absurd h (by simp)
  · refine ⟨by simpa using hn, ?_⟩
    rw [matchExhaustive, if_neg hn] at h
    by_cases hcond : ((generateExhaustiveSearchCandidates sp).length : Int) =
        numSearchCandidates sp ∧
        scoreChecksPass grid discrete_scans (generateExhaustiveSearchCandidates sp)
    · rw [if_pos hcond] at h
      rcases hbc : bestCandidate (scoreCandidates opts grid discrete_scans
          (generateExhaustiveSearchCandidates sp)) with _ | best
      · rw [hbc] at h
        exact absurd h (by simp)
      · rw [hbc] at h
        refine ⟨best, rfl, ?_, ?_⟩
        · have := (MatchOutcome.ok.injEq _ _ ▸ h)
          exact (Prod.mk.injEq _ _ _ _ ▸ this).1.symm
        · have := (MatchOutcome.ok.injEq _ _ ▸ h)
          exact (Prod.mk.injEq _ _ _ _ ▸ this).2.symm
    · rw [if_neg hcond] at h
      exact absurd h (by simp)

/-- C2: for a successful exhaustive `Match`, the returned score is the
maximum over all post-penalty candidate scores of the (rotation-index-major,
then x-offset, then y-offset) enumeration, and everything enumerated
strictly before the winning candidate scores strictly below it, so the
winner is the lowest-index maximal candidate. -/
theorem match_best_score_first_max (opts : Options) (outNull : Bool)
    (initial : Rigid2d) (sp : SearchParameters)
    (discrete_scans : List DiscreteScan2D) (grid : GridModel) (s : ℝ)
    (pose : Rigid2d)
    (h : matchExhaustive opts outNull initial sp discrete_scans grid =
      .ok (s, pose)) :
    ∃ l₁ l₂ best,
      bestCandidate (scoreCandidates opts grid discrete_scans
        (generateExhaustiveSearchCandidates sp)) = some best ∧
      scoreCandidates opts grid discrete_scans
          (generateExhaustiveSearchCandidates sp) = l₁ ++ best :: l₂ ∧
      best.score = s ∧ (∀ y ∈ l₁, y.score < s) ∧
      ∀ y ∈ scoreCandidates opts grid discrete_scans
          (generateExhaustiveSearchCandidates sp), y.score ≤ s := by
  obtain ⟨-, best, hbc, hs, -⟩ :=
    matchExhaustive_ok_inv opts outNull initial sp discrete_scans grid s pose h
  obtain ⟨l₁, l₂, heq, hlt, hle⟩ := bestCandidate_spec _ best hbc
  subst hs
  exact ⟨l₁, l₂, best, hbc, heq, rfl, hlt, hle⟩

/-- C7: for a successful exhaustive `Match`, the written pose translates the
initial pose by the winning candidate's metric offset added directly (not
re-rotated by the initial rotation) and composes the rotations by adding the
winner's orientation to the initial angle. -/
theorem match_pose_composition (opts : Options) (outNull : Bool)
    (initial : Rigid2d) (sp : SearchParameters)
    (discrete_scans : List DiscreteScan2D) (grid : GridModel) (s : ℝ)
    (pose : Rigid2d)
    (h : matchExhaustive opts outNull initial sp discrete_scans grid =
      .ok (s, pose)) :
    ∃ best, bestCandidate (scoreCandidates opts grid discrete_scans
        (generateExhaustiveSearchCandidates sp)) = some best ∧
      pose.x = initial.x + best.x ∧ pose.y = initial.y + best.y ∧
      pose.theta = initial.theta + best.orientation := by
  obtain ⟨-, best, hbc, -, hp⟩ :=
    matchExhaustive_ok_inv opts outNull initial sp discrete_scans grid s pose h
  exact ⟨best, hbc, by rw [hp], by rw [hp], by rw [hp]⟩

/-- A one-rotation, one-offset search window used as a concrete scenario. -/
noncomputable def sp0 : SearchParameters :=
  { num_scans := 1, angular_perturbation_step_size := 0, resolution := 1,
    linear_bounds := [{ min_x := 0, max_x := 0, min_y := 0, max_y := 0 }] }

/-- A probability grid that reports probability 1 everywhere. -/
noncomputable def grid0 : GridModel := .probability { prob := fun _ => 1 }

/-- A single one-point discrete scan at the origin. -/
def scans0 : List DiscreteScan2D := [[((0 : Int), (0 : Int))]]

/-- Zero penalty weights. -/
noncomputable def opts0 : Options :=
  { linear_search_window := 0, angular_search_window := 0,
    translation_delta_cost_weight := 0, rotation_delta_cost_weight := 0 }

/-- The identity initial pose. -/
noncomputable def init0 : Rigid2d := { x := 0, y := 0, theta := 0 }

theorem gen_sp0 : generateExhaustiveSearchCandidates sp0 = [mkCandidate 0 0 0 sp0] := by
  simp [generateExhaustiveSearchCandidates, sp0, intRange, numSearchCandidates,
    List.range_succ]

theorem num_sp0 : numSearchCandidates sp0 = 1 := by
  simp [numSearchCandidates, sp0, List.range_succ]

theorem raw_grid0 : probRawScore { prob := fun _ => 1 } [((0 : Int), (0 : Int))] 0 0 = 1 := by
  simp [probRawScore]

theorem mk_sp0_fields : (mkCandidate 0 0 0 sp0).scan_index = 0 ∧
    (mkCandidate 0 0 0 sp0).x_index_offset = 0 ∧
    (mkCandidate 0 0 0 sp0).y_index_offset = 0 ∧
    (mkCandidate 0 0 0 sp0).x = 0 ∧ (mkCandidate 0 0 0 sp0).y = 0 ∧
    (mkCandidate 0 0 0 sp0).orientation = 0 := by
  refine ⟨rfl, rfl, rfl, ?_, ?_, ?_⟩ <;> simp [mkCandidate, sp0]

theorem checks_sp0 : scoreChecksPass grid0 scans0 [mkCandidate 0 0 0 sp0] := by
  intro c hc
  rw [List.mem_singleton] at hc
  subst hc
  show 0 < probRawScore { prob := fun _ => 1 }
    (scans0.getD (mkCandidate 0 0 0 sp0).scan_index [])
    (mkCandidate 0 0 0 sp0).x_index_offset (mkCandidate 0 0 0 sp0).y_index_offset
  rw [mk_sp0_fields.1, mk_sp0_fields.2.1, mk_sp0_fields.2.2.1]
  show 0 < probRawScore { prob := fun _ => 1 } [((0 : Int), (0 : Int))] 0 0
  rw [raw_grid0]
  norm_num

theorem scoreCandidates_singleton (opts : Options) (grid : GridModel)
    (discrete_scans : List DiscreteScan2D) (c : Candidate2D) :
    scoreCandidates opts grid discrete_scans [c] =
      [{ c with score := candidateScoreValue opts grid discrete_scans c }] := rfl

theorem scored_sp0 : scoreCandidates opts0 grid0 scans0 [mkCandidate 0 0 0 sp0] =
    [{ mkCandidate 0 0 0 sp0 with score := 1 }] := by
  rw [scoreCandidates_singleton]
  have hval : candidateScoreValue opts0 grid0 scans0 (mkCandidate 0 0 0 sp0) = 1 := by
    rw [candidateScoreValue]
    have hraw : rawScore grid0 (scans0.getD (mkCandidate 0 0 0 sp0).scan_index [])
        (mkCandidate 0 0 0 sp0).x_index_offset
        (mkCandidate 0 0 0 sp0).y_index_offset = 1 := by
      rw [mk_sp0_fields.1, mk_sp0_fields.2.1, mk_sp0_fields.2.2.1]
      show probRawScore { prob := fun _ => 1 } [((0 : Int), (0 : Int))] 0 0 = 1
      exact raw_grid0
    rw [hraw]
    have hw : opts0.translation_delta_cost_weight = 0 := rfl
    have hr : opts0.rotation_delta_cost_weight = 0 := rfl
    rw [hw, hr, mul_zero, mul_zero, add_zero, pow2, mul_zero, neg_zero,
      Real.exp_zero, mul_one]
  rw [hval]

theorem match_sp0 : matchExhaustive opts0 false init0 sp0 scans0 grid0 =
    .ok (1, { x := 0, y := 0, theta := 0 }) := by
  rw [matchExhaustive, if_neg (by simp)]
  rw [if_pos ?side]
  case side =>
    constructor
    · rw [gen_sp0, num_sp0]
      rfl
    · rw [gen_sp0]
      exact checks_sp0
  rw [gen_sp0, scored_sp0]
  rw [show bestCandidate [{ mkCandidate 0 0 0 sp0 with score := 1 }] =
    some { mkCandidate 0 0 0 sp0 with score := 1 } from rfl]
  have hx := mk_sp0_fields.2.2.2.1
  have hy := mk_sp0_fields.2.2.2.2.1
  have ho := mk_sp0_fields.2.2.2.2.2
  simp only [init0]
  congr 1
  refine Prod.ext rfl ?_
  show ({ x := 0 + ({ mkCandidate 0 0 0 sp0 with score := 1 } : Candidate2D).x,
          y := 0 + ({ mkCandidate 0 0 0 sp0 with score := 1 } : Candidate2D).y,
          theta := 0 + ({ mkCandidate 0 0 0 sp0 with
            score := 1 } : Candidate2D).orientation } : Rigid2d) =
    { x := 0, y := 0, theta := 0 }
  have hx' : ({ mkCandidate 0 0 0 sp0 with score := 1 } : Candidate2D).x = 0 := hx
  have hy' : ({ mkCandidate 0 0 0 sp0 with score := 1 } : Candidate2D).y = 0 := hy
  have ho' : ({ mkCandidate 0 0 0 sp0 with
    score := 1 } : Candidate2D).orientation = 0 := ho
  rw [hx', hy', ho', add_zero]

/-- Witness for the C2 theorem at the concrete one-candidate scenario. -/
theorem match_best_score_first_max_witness :
    ∃ l₁ l₂ best,
      bestCandidate (scoreCandidates opts0 grid0 scans0
        (generateExhaustiveSearchCandidates sp0)) = some best ∧
      scoreCandidates opts0 grid0 scans0
          (generateExhaustiveSearchCandidates sp0) = l₁ ++ best :: l₂ ∧
      best.score = 1 ∧ (∀ y ∈ l₁, y.score < 1) ∧
      ∀ y ∈ scoreCandidates opts0 grid0 scans0
          (generateExhaustiveSearchCandidates sp0), y.score ≤ 1 :=
  match_best_score_first_max opts0 false init0 sp0 scans0 grid0 1
    { x := 0, y := 0, theta := 0 } match_sp0

/-- Witness for the C7 theorem at the concrete one-candidate scenario. -/
theorem match_pose_composition_witness :
    ∃ best, bestCandidate (scoreCandidates opts0 grid0 scans0
        (generateExhaustiveSearchCandidates sp0)) = some best ∧
      ({ x := 0, y := 0, theta := 0 } : Rigid2d).x = init0.x + best.x ∧
      ({ x := 0, y := 0, theta := 0 } : Rigid2d).y = init0.y + best.y ∧
      ({ x := 0, y := 0, theta := 0 } : Rigid2d).theta =
        init0.theta + best.orientation :=
  match_pose_composition opts0 false init0 sp0 scans0 grid0 1
    { x := 0, y := 0, theta := 0 } match_sp0

/-- Penalty weights with a translation weight of 2, to separate the source's
penalty formula from the spec's. -/
noncomputable def opts1 : Options :=
  { linear_search_window := 0, angular_search_window := 0,
    translation_delta_cost_weight := 2, rotation_delta_cost_weight := 0 }

theorem mk_sp0_unit_fields : (mkCandidate 0 1 0 sp0).scan_index = 0 ∧
    (mkCandidate 0 1 0 sp0).x_index_offset = 1 ∧
    (mkCandidate 0 1 0 sp0).y_index_offset = 0 ∧
    (mkCandidate 0 1 0 sp0).x = 1 ∧ (mkCandidate 0 1 0 sp0).y = 0 ∧
    (mkCandidate 0 1 0 sp0).orientation = 0 := by
  refine ⟨rfl, rfl, rfl, ?_, ?_, ?_⟩ <;> simp [mkCandidate, sp0]

theorem raw_grid0_unit :
    probRawScore { prob := fun _ => 1 } [((0 : Int), (0 : Int))] 1 0 = 1 := by
  simp [probRawScore]

/-- C1 counterexample: at a candidate with metric offset (1, 0), orientation
0 and translation weight 2, `ScoreCandidates` produces
`exp(-((hypot * w_t + |orientation| * w_r))^2) = exp(-4)`, not the spec's
`exp(-(hypot^2 * w_t + |orientation| * w_r)) = exp(-2)`. -/
theorem penalty_formula_counterexample :
    ¬ ((scoreCandidates opts1 grid0 scans0 [mkCandidate 0 1 0 sp0]).map
        Candidate2D.score =
      [probRawScore { prob := fun _ => 1 } [((0 : Int), (0 : Int))] 1 0 *
        specPenaltyFactor opts1 (mkCandidate 0 1 0 sp0)]) := by
  rw [scoreCandidates_singleton, List.map_singleton]
  have hL : ({ mkCandidate 0 1 0 sp0 with
      score := candidateScoreValue opts1 grid0 scans0 (mkCandidate 0 1 0 sp0) } :
        Candidate2D).score =
      candidateScoreValue opts1 grid0 scans0 (mkCandidate 0 1 0 sp0) := rfl
  rw [hL]
  have hhyp : hypot (mkCandidate 0 1 0 sp0).x (mkCandidate 0 1 0 sp0).y = 1 := by
    rw [mk_sp0_unit_fields.2.2.2.1, mk_sp0_unit_fields.2.2.2.2.1, hypot]
    norm_num
  have hraw : rawScore grid0 (scans0.getD (mkCandidate 0 1 0 sp0).scan_index [])
      (mkCandidate 0 1 0 sp0).x_index_offset
      (mkCandidate 0 1 0 sp0).y_index_offset = 1 := by
    rw [mk_sp0_unit_fields.1, mk_sp0_unit_fields.2.1, mk_sp0_unit_fields.2.2.1]
    show probRawScore { prob := fun _ => 1 } [((0 : Int), (0 : Int))] 1 0 = 1
    exact raw_grid0_unit
  have hv : candidateScoreValue opts1 grid0 scans0 (mkCandidate 0 1 0 sp0) =
      Real.exp (-4) := by
    rw [candidateScoreValue, hraw, hhyp, mk_sp0_unit_fields.2.2.2.2.2]
    have hw : opts1.translation_delta_cost_weight = 2 := rfl
    have hr : opts1.rotation_delta_cost_weight = 0 := rfl
    rw [hw, hr, pow2]
    norm_num
  have hs : probRawScore { prob := fun _ => 1 } [((0 : Int), (0 : Int))] 1 0 *
      specPenaltyFactor opts1 (mkCandidate 0 1 0 sp0) = Real.exp (-2) := by
    rw [raw_grid0_unit, specPenaltyFactor, hhyp, mk_sp0_unit_fields.2.2.2.2.2]
    have hw : opts1.translation_delta_cost_weight = 2 := rfl
    have hr : opts1.rotation_delta_cost_weight = 0 := rfl
    rw [hw, hr, pow2]
    norm_num
  rw [hv, hs]
  intro hcontra
  injection hcontra with h4 h5
  have := Real.exp_eq_exp.mp h4
  norm_num at this

/-- C1 amended: for every candidate position in the list, `ScoreCandidates`
sets the score to the raw grid score times
`exp(-((hypot(x, y) * translation_weight + |orientation| * rotation_weight))^2)`
— the square applies to the whole weighted sum, not to the distance alone. -/
theorem scoreCandidates_penalty_formula (opts : Options) (grid : GridModel)
    (discrete_scans : List DiscreteScan2D) (cands : List Candidate2D)
    (i : Nat) (h1 : i < cands.length) :
    ((scoreCandidates opts grid discrete_scans cands).getD i default).score =
      rawScore grid (discrete_scans.getD (cands.getD i default).scan_index [])
          (cands.getD i default).x_index_offset
          (cands.getD i default).y_index_offset *
        Real.exp (-((Real.sqrt ((cands.getD i default).x * (cands.getD i default).x +
            (cands.getD i default).y * (cands.getD i default).y) *
              opts.translation_delta_cost_weight +
          |(cands.getD i default).orientation| *
              opts.rotation_delta_cost_weight) ^ 2)) := by
  have h2 : i < (scoreCandidates opts grid discrete_scans cands).length := by
    simpa [scoreCandidates] using h1
  rw [List.getD_eq_getElem _ _ h2, List.getD_eq_getElem _ _ h1]
  simp only [scoreCandidates, List.getElem_map]
  rw [candidateScoreValue, hypot, pow2, pow_two]

/-- Witness for the amended C1 theorem: at the zero-offset candidate the
formula evaluates to a post-penalty score of 1. -/
theorem scoreCandidates_penalty_formula_witness :
    ((scoreCandidates opts0 grid0 scans0 [mkCandidate 0 0 0 sp0]).getD 0
      default).score = 1 := by
  have h := scoreCandidates_penalty_formula opts0 grid0 scans0
    [mkCandidate 0 0 0 sp0] 0 (by norm_num)
  rw [h]
  have hget : ([mkCandidate 0 0 0 sp0].getD 0 default) = mkCandidate 0 0 0 sp0 := rfl
  rw [hget]
  have hraw : rawScore grid0 (scans0.getD (mkCandidate 0 0 0 sp0).scan_index [])
      (mkCandidate 0 0 0 sp0).x_index_offset
      (mkCandidate 0 0 0 sp0).y_index_offset = 1 := by
    rw [mk_sp0_fields.1, mk_sp0_fields.2.1, mk_sp0_fields.2.2.1]
    show probRawScore { prob := fun _ => 1 } [((0 : Int), (0 : Int))] 0 0 = 1
    exact raw_grid0
  rw [hraw, mk_sp0_fields.2.2.2.1, mk_sp0_fields.2.2.2.2.1,
    mk_sp0_fields.2.2.2.2.2]
  have hw : opts0.translation_delta_cost_weight = 0 := rfl
  have hr : opts0.rotation_delta_cost_weight = 0 := rfl
  rw [hw, hr]
  norm_num

/-- The produced candidate count in closed form: the loops emit, per scan
index, one candidate for each x offset in `[min_x, max_x]` and y offset in
`[min_y, max_y]`, each range clamped at zero width when inverted. -/
theorem length_generateExhaustiveSearchCandidates (sp : SearchParameters) :
    (generateExhaustiveSearchCandidates sp).length =
      ((List.range sp.num_scans).map fun i =>
        ((sp.linear_bounds.getD i default).max_x + 1 -
          (sp.linear_bounds.getD i default).min_x).toNat *
        ((sp.linear_bounds.getD i default).max_y + 1 -
          (sp.linear_bounds.getD i default).min_y).toNat).sum := by
  rw [generateExhaustiveSearchCandidates, List.length_flatMap]
  congr 1
  refine List.map_congr_left ?_
  intro i hi
  simp only [Function.comp_apply]
  rw [List.length_flatMap]
  have hinner : ∀ xo : Int,
      (((intRange (sp.linear_bounds.getD i default).min_y
        (sp.linear_bounds.getD i default).max_y).map
          fun yo => mkCandidate i xo yo sp).length) =
      ((sp.linear_bounds.getD i default).max_y + 1 -
        (sp.linear_bounds.getD i default).min_y).toNat := by
    intro xo
    rw [List.length_map, length_intRange]
  have hmap : ((intRange (sp.linear_bounds.getD i default).min_x
      (sp.linear_bounds.getD i default).max_x).map
        (List.length ∘ fun xo =>
          (intRange (sp.linear_bounds.getD i default).min_y
            (sp.linear_bounds.getD i default).max_y).map
            fun yo => mkCandidate i xo yo sp)) =
      (intRange (sp.linear_bounds.getD i default).min_x
        (sp.linear_bounds.getD i default).max_x).map
        fun xo : Int => ((sp.linear_bounds.getD i default).max_y + 1 -
          (sp.linear_bounds.getD i default).min_y).toNat := by
    refine List.map_congr_left ?_
    intro xo hxo
    simp only [Function.comp_apply]
    exact hinner xo
  rw [hmap, List.map_const', List.sum_replicate, smul_eq_mul, length_intRange]

/-- Casting a range sum of natural products to a range sum of integer
products, given that every factor is nonnegative. -/
theorem sum_range_toNat_mul (n : Nat) (f g : Nat → Int)
    (h : ∀ i < n, 0 ≤ f i ∧ 0 ≤ g i) :
    ((((List.range n).map fun i => (f i).toNat * (g i).toNat).sum : Nat) : Int) =
      ((List.range n).map fun i => f i * g i).sum := by
  induction n with
  | zero => simp
  | succ n ih =>
    rw [List.range_succ, List.map_append, List.map_append, List.sum_append,
      List.sum_append, Nat.cast_add, ih fun i hi => h i (Nat.lt_succ_of_lt hi)]
    obtain ⟨h1, h2⟩ := h n (Nat.lt_succ_self n)
    simp [Int.toNat_of_nonneg h1, Int.toNat_of_nonneg h2]

/-- C3 counterexample: a `SearchParameters` value whose single scan has
inverted bounds in both axes produces zero candidates while the precomputed
combinatorial total is `(-1) * (-1) = 1`, so the fatal `CHECK_EQ` fires. -/
noncomputable def sp_bad : SearchParameters :=
  { num_scans := 1, angular_perturbation_step_size := 0, resolution := 1,
    linear_bounds := [{ min_x := 1, max_x := -1, min_y := 1, max_y := -1 }] }

theorem candidate_count_counterexample :
    ¬ (((generateExhaustiveSearchCandidates sp_bad).length : Int) =
      numSearchCandidates sp_bad) := by
  have h1 : (generateExhaustiveSearchCandidates sp_bad).length = 0 := by
    rw [length_generateExhaustiveSearchCandidates]
    rfl
  have h2 : numSearchCandidates sp_bad = 1 := by
    rw [numSearchCandidates]
    rfl
  rw [h1, h2]
  norm_num

/-- C3 amended: whenever every scan index's linear bounds are not inverted
past empty (`min ≤ max + 1` in both axes, i.e. nonnegative cell counts), the
enumeration produces exactly the precomputed combinatorial sum of per-scan
`(max_x - min_x + 1) * (max_y - min_y + 1)` and the fatal count self-check
cannot fire; with doubly inverted bounds the counts can disagree (see the
counterexample) and the mismatch is a fatal `CHECK_EQ` abort, not a
recoverable condition. -/
theorem candidate_count_matches (sp : SearchParameters)
    (h : ∀ i < sp.num_scans,
      (sp.linear_bounds.getD i default).min_x ≤
        (sp.linear_bounds.getD i default).max_x + 1 ∧
      (sp.linear_bounds.getD i default).min_y ≤
        (sp.linear_bounds.getD i default).max_y + 1) :
    ((generateExhaustiveSearchCandidates sp).length : Int) =
      numSearchCandidates sp := by
  rw [length_generateExhaustiveSearchCandidates, numSearchCandidates]
  rw [sum_range_toNat_mul sp.num_scans _ _ fun i hi => by
    obtain ⟨h1, h2⟩ := h i hi
    exact ⟨by omega, by omega⟩]
  congr 1
  refine List.map_congr_left ?_
  intro i hi
  have : (sp.linear_bounds.getD i default).max_x + 1 -
      (sp.linear_bounds.getD i default).min_x =
      (sp.linear_bounds.getD i default).max_x -
        (sp.linear_bounds.getD i default).min_x + 1 := by omega
  rw [this]
  have : (sp.linear_bounds.getD i default).max_y + 1 -
      (sp.linear_bounds.getD i default).min_y =
      (sp.linear_bounds.getD i default).max_y -
        (sp.linear_bounds.getD i default).min_y + 1 := by omega
  rw [this]

/-- Witness for the amended C3 theorem: the concrete single-cell window
produces exactly one candidate, matching its combinatorial total. -/
theorem candidate_count_matches_witness :
    ((generateExhaustiveSearchCandidates sp0).length : Int) =
      numSearchCandidates sp0 := by
  refine candidate_count_matches sp0 ?_
  intro i hi
  have : i = 0 := by
    have : sp0.num_scans = 1 := rfl
    omega
  subst this
  refine ⟨?_, ?_⟩ <;> norm_num [sp0]

/-- Modelled from the spec: the grid's valid cell index range (`CellLimits`
of the external map-limits collaborator), with indices valid when
componentwise nonnegative and below the cell counts. -/
structure CellLimits where
  num_x_cells : Int
  num_y_cells : Int

/-- Validity of one integer cell index for a grid extent. -/
def CellLimits.containsIndex (l : CellLimits) (p : Int × Int) : Prop :=
  0 ≤ p.1 ∧ 0 ≤ p.2 ∧ p.1 < l.num_x_cells ∧ p.2 < l.num_y_cells

/-- The probability scoring loop reads the grid exactly at the proposed
shifted indices: its value is the sum of the grid over `proposedIndices`
divided by the scan size. -/
theorem probRawScore_reads_proposed (g : ProbabilityGrid) (scan : DiscreteScan2D)
    (xo yo : Int) :
    probRawScore g scan xo yo =
      ((proposedIndices scan xo yo).map g.prob).sum / (scan.length : ℝ) := by
  rw [probRawScore, foldl_add_eq_sum, zero_add, proposedIndices, List.map_map]
  rfl

/-- The TSDF scoring loop reads the grid exactly at the proposed shifted
indices: its accumulator is a pair of sums over `proposedIndices`. -/
theorem tsdfAccumulate_reads_proposed (t : TSDF2D) (scan : DiscreteScan2D)
    (xo yo : Int) :
    tsdfAccumulate t scan xo yo =
      (((proposedIndices scan xo yo).map fun q =>
          (t.maxCorrespondenceCost - |(t.tsdAndWeight q).1|) /
            t.maxCorrespondenceCost * (t.tsdAndWeight q).2).sum,
       ((proposedIndices scan xo yo).map fun q => (t.tsdAndWeight q).2).sum) := by
  rw [tsdfAccumulate_eq_sum, proposedIndices, List.map_map, List.map_map]
  rfl

/-- C4: under the `SearchParameters` trimming invariant — every scan point,
shifted by any offset inside its scan index's linear bounds, lands on a
valid grid cell — every shifted cell index read by the candidate scoring
loops (`proposedIndices`) for every enumerated candidate is a valid grid
index, even though the scoring loops themselves perform no bounds check. -/
theorem scoring_reads_in_bounds (sp : SearchParameters)
    (discrete_scans : List DiscreteScan2D) (limits : CellLimits)
    (hinv : ∀ i < sp.num_scans, ∀ p ∈ discrete_scans.getD i [], ∀ xo yo : Int,
      (sp.linear_bounds.getD i default).min_x ≤ xo →
      xo ≤ (sp.linear_bounds.getD i default).max_x →
      (sp.linear_bounds.getD i default).min_y ≤ yo →
      yo ≤ (sp.linear_bounds.getD i default).max_y →
      limits.containsIndex (p.1 + xo, p.2 + yo)) :
    ∀ c ∈ generateExhaustiveSearchCandidates sp,
      ∀ q ∈ proposedIndices (discrete_scans.getD c.scan_index [])
        c.x_index_offset c.y_index_offset, limits.containsIndex q := by
  intro c hc q hq
  obtain ⟨i, xo, yo, hi, hx1, hx2, hy1, hy2, rfl⟩ :=
    (mem_generateExhaustiveSearchCandidates sp c).mp hc
  have hsi : (mkCandidate i xo yo sp).scan_index = i := rfl
  have hxi : (mkCandidate i xo yo sp).x_index_offset = xo := rfl
  have hyi : (mkCandidate i xo yo sp).y_index_offset = yo := rfl
  rw [hsi, hxi, hyi] at hq
  obtain ⟨p, hp, rfl⟩ := List.mem_map.mp hq
  exact hinv i hi p hp xo yo hx1 hx2 hy1 hy2

/-- A 2-offset search window with a single scan point, inside a 10x10 grid. -/
noncomputable def sp4 : SearchParameters :=
  { num_scans := 1, angular_perturbation_step_size := 0, resolution := 1,
    linear_bounds := [{ min_x := 0, max_x := 1, min_y := 0, max_y := 1 }] }

/-- A single discrete scan with one cell at (2, 3). -/
def scans4 : List DiscreteScan2D := [[((2 : Int), (3 : Int))]]

/-- A 10x10 grid extent. -/
def limits4 : CellLimits := { num_x_cells := 10, num_y_cells := 10 }

/-- Witness for the C4 theorem: the concrete trimmed window keeps all
proposed reads inside the 10x10 grid. -/
theorem scoring_reads_in_bounds_witness :
    (∀ i < sp4.num_scans, ∀ p ∈ scans4.getD i [], ∀ xo yo : Int,
      (sp4.linear_bounds.getD i default).min_x ≤ xo →
      xo ≤ (sp4.linear_bounds.getD i default).max_x →
      (sp4.linear_bounds.getD i default).min_y ≤ yo →
      yo ≤ (sp4.linear_bounds.getD i default).max_y →
      limits4.containsIndex (p.1 + xo, p.2 + yo)) ∧
    ∀ c ∈ generateExhaustiveSearchCandidates sp4,
      ∀ q ∈ proposedIndices (scans4.getD c.scan_index [])
        c.x_index_offset c.y_index_offset, limits4.containsIndex q := by
  have hinv : ∀ i < sp4.num_scans, ∀ p ∈ scans4.getD i [], ∀ xo yo : Int,
      (sp4.linear_bounds.getD i default).min_x ≤ xo →
      xo ≤ (sp4.linear_bounds.getD i default).max_x →
      (sp4.linear_bounds.getD i default).min_y ≤ yo →
      yo ≤ (sp4.linear_bounds.getD i default).max_y →
      limits4.containsIndex (p.1 + xo, p.2 + yo) := by
    intro i hi p hp xo yo h1 h2 h3 h4
    have hi0 : i = 0 := by
      have hn : sp4.num_scans = 1 := rfl
      omega
    subst hi0
    have hp' : p = ((2 : Int), (3 : Int)) := by
      have hs : scans4.getD 0 [] = [((2 : Int), (3 : Int))] := rfl
      rw [hs, List.mem_singleton] at hp
      exact hp
    subst hp'
    have h1' : (0 : Int) ≤ xo := h1
    have h2' : xo ≤ (1 : Int) := h2
    have h3' : (0 : Int) ≤ yo := h3
    have h4' : yo ≤ (1 : Int) := h4
    show (0 : Int) ≤ 2 + xo ∧ (0 : Int) ≤ 3 + yo ∧
      2 + xo < (10 : Int) ∧ 3 + yo < (10 : Int)
    omega
  exact ⟨hinv, scoring_reads_in_bounds sp4 scans4 limits4 hinv⟩

/-- C5: for a probability grid, the raw candidate score is the arithmetic
mean over the shifted scan cells of the cell occupancy probabilities; a
strictly positive mean is returned as the score, and a non-positive mean
makes the `CHECK_GT` abort fatally (`none`) instead of returning. -/
theorem prob_score_mean_and_fatal (g : ProbabilityGrid) (scan : DiscreteScan2D)
    (xo yo : Int) :
    probRawScore g scan xo yo =
      (scan.map fun p => g.prob (p.1 + xo, p.2 + yo)).sum / (scan.length : ℝ) ∧
    (0 < probRawScore g scan xo yo →
      computeCandidateScoreProbabilityGrid g scan xo yo =
        some (probRawScore g scan xo yo)) ∧
    (probRawScore g scan xo yo ≤ 0 →
      computeCandidateScoreProbabilityGrid g scan xo yo = none) := by
  refine ⟨?_, ?_, ?_⟩
  · rw [probRawScore, foldl_add_eq_sum, zero_add]
  · intro hpos
    rw [computeCandidateScoreProbabilityGrid]
    exact if_pos hpos
  · intro hnonpos
    rw [computeCandidateScoreProbabilityGrid]
    exact if_neg (not_lt.mpr hnonpos)

/-- Witness for the C5 theorem: an all-ones probability grid with a one-cell
scan has mean 1, which is strictly positive and returned. -/
theorem prob_score_mean_and_fatal_witness :
    0 < probRawScore { prob := fun _ => 1 } [((0 : Int), (0 : Int))] 0 0 ∧
    computeCandidateScoreProbabilityGrid { prob := fun _ => 1 }
        [((0 : Int), (0 : Int))] 0 0 =
      some (probRawScore { prob := fun _ => 1 } [((0 : Int), (0 : Int))] 0 0) := by
  have hpos : 0 < probRawScore { prob := fun _ => 1 } [((0 : Int), (0 : Int))] 0 0 := by
    rw [raw_grid0]
    norm_num
  exact ⟨hpos,
    (prob_score_mean_and_fatal { prob := fun _ => 1 }
      [((0 : Int), (0 : Int))] 0 0).2.1 hpos⟩

/-- C6: for a TSDF, the scoring accumulator is the weighted sum of the
normalized proximities `(max_cost - |tsd|) / max_cost` over the shifted
cells together with the summed weight; a zero summed weight returns the
score 0 normally (no fatal error), and otherwise the weighted mean is
returned whenever it is nonnegative. -/
theorem tsdf_score_weighted_mean (t : TSDF2D) (scan : DiscreteScan2D)
    (xo yo : Int) :
    (tsdfAccumulate t scan xo yo).1 =
      (scan.map fun p =>
        (t.maxCorrespondenceCost - |(t.tsdAndWeight (p.1 + xo, p.2 + yo)).1|) /
          t.maxCorrespondenceCost * (t.tsdAndWeight (p.1 + xo, p.2 + yo)).2).sum ∧
    (tsdfAccumulate t scan xo yo).2 =
      (scan.map fun p => (t.tsdAndWeight (p.1 + xo, p.2 + yo)).2).sum ∧
    ((tsdfAccumulate t scan xo yo).2 = 0 →
      computeCandidateScoreTSDF t scan xo yo = some 0) ∧
    ((tsdfAccumulate t scan xo yo).2 ≠ 0 →
      0 ≤ (tsdfAccumulate t scan xo yo).1 / (tsdfAccumulate t scan xo yo).2 →
      computeCandidateScoreTSDF t scan xo yo =
        some ((tsdfAccumulate t scan xo yo).1 / (tsdfAccumulate t scan xo yo).2)) := by
  refine ⟨?_, ?_, ?_, ?_⟩
  · rw [tsdfAccumulate_eq_sum]
  · rw [tsdfAccumulate_eq_sum]
  · intro hzero
    rw [computeCandidateScoreTSDF]
    exact if_pos hzero
  · intro hnz hnn
    rw [computeCandidateScoreTSDF]
    rw [if_neg hnz]
    exact if_pos hnn

/-- A TSDF with max correspondence cost 1, distance 0 and weight 1 in every
cell. -/
noncomputable def tsdfOne : TSDF2D :=
  { maxCorrespondenceCost := 1, tsdAndWeight := fun _ => (0, 1) }

/-- A TSDF whose every cell has weight 0. -/
noncomputable def tsdfZeroWeight : TSDF2D :=
  { maxCorrespondenceCost := 1, tsdAndWeight := fun _ => (0, 0) }

theorem tsdfOne_acc : tsdfAccumulate tsdfOne [((0 : Int), (0 : Int))] 0 0 = (1, 1) := by
  rw [tsdfAccumulate_eq_sum]
  simp [tsdfOne]

theorem tsdfZeroWeight_acc :
    tsdfAccumulate tsdfZeroWeight [((0 : Int), (0 : Int))] 0 0 = (0, 0) := by
  rw [tsdfAccumulate_eq_sum]
  simp [tsdfZeroWeight]

/-- Witness for the C6 theorem: with unit weights the weighted mean 1 is
returned; with all-zero weights the score 0 is returned normally. -/
theorem tsdf_score_weighted_mean_witness :
    ((tsdfAccumulate tsdfOne [((0 : Int), (0 : Int))] 0 0).2 ≠ 0 ∧
      0 ≤ (tsdfAccumulate tsdfOne [((0 : Int), (0 : Int))] 0 0).1 /
        (tsdfAccumulate tsdfOne [((0 : Int), (0 : Int))] 0 0).2 ∧
      computeCandidateScoreTSDF tsdfOne [((0 : Int), (0 : Int))] 0 0 =
        some ((tsdfAccumulate tsdfOne [((0 : Int), (0 : Int))] 0 0).1 /
          (tsdfAccumulate tsdfOne [((0 : Int), (0 : Int))] 0 0).2)) ∧
    ((tsdfAccumulate tsdfZeroWeight [((0 : Int), (0 : Int))] 0 0).2 = 0 ∧
      computeCandidateScoreTSDF tsdfZeroWeight [((0 : Int), (0 : Int))] 0 0 =
        some 0) := by
  have h1 : (tsdfAccumulate tsdfOne [((0 : Int), (0 : Int))] 0 0).2 ≠ 0 := by
    rw [tsdfOne_acc]
    norm_num
  have h2 : 0 ≤ (tsdfAccumulate tsdfOne [((0 : Int), (0 : Int))] 0 0).1 /
      (tsdfAccumulate tsdfOne [((0 : Int), (0 : Int))] 0 0).2 := by
    rw [tsdfOne_acc]
    norm_num
  have h3 : (tsdfAccumulate tsdfZeroWeight [((0 : Int), (0 : Int))] 0 0).2 = 0 := by
    rw [tsdfZeroWeight_acc]
  refine ⟨⟨h1, h2, ?_⟩, ⟨h3, ?_⟩⟩
  · exact (tsdf_score_weighted_mean tsdfOne [((0 : Int), (0 : Int))] 0 0).2.2.2 h1 h2
  · exact (tsdf_score_weighted_mean tsdfZeroWeight [((0 : Int), (0 : Int))] 0 0).2.2.1 h3

/-- C8: in both fine-aligner variants, the cloud handed to registration is
the scan with every point mapped through the full initial pose (rotation and
translation) in the plane and its out-of-plane coordinate set to zero, and
the refined pose is the registration's delta composed on the left of the
initial pose: `final = delta ∘ initial`. -/
theorem fine_align_flatten_and_compose
    (regICP regNDT : PointCloud → PointCloud → Rigid2d × ℝ)
    (voxelFilter : ℝ → PointCloud → PointCloud) (initial : Rigid2d)
    (pc submap : PointCloud) :
    (∃ delta : Rigid2d, ∃ fitness : ℝ,
      regICP (pc.map fun p => (⟨initial.x + Real.cos initial.theta * p.x -
            Real.sin initial.theta * p.y,
          initial.y + Real.sin initial.theta * p.x + Real.cos initial.theta * p.y,
          0⟩ : Point3)) (voxelFilter icpLeafSize submap) = (delta, fitness) ∧
      matchFineICP regICP voxelFilter false initial pc submap =
        .ok (fitness, delta.comp initial)) ∧
    (∃ delta : Rigid2d, ∃ fitness : ℝ,
      regNDT (pc.map fun p => (⟨initial.x + Real.cos initial.theta * p.x -
            Real.sin initial.theta * p.y,
          initial.y + Real.sin initial.theta * p.x + Real.cos initial.theta * p.y,
          0⟩ : Point3)) (voxelFilter ndtLeafSize submap) = (delta, fitness) ∧
      matchFineNDT regNDT voxelFilter false initial pc submap =
        .ok (fitness, delta.comp initial)) := by
  constructor
  · refine ⟨(regICP (flattenAndTransform initial pc)
      (voxelFilter icpLeafSize submap)).1,
      (regICP (flattenAndTransform initial pc) (voxelFilter icpLeafSize submap)).2,
      ?_, rfl⟩
    rfl
  · refine ⟨(regNDT (flattenAndTransform initial pc)
      (voxelFilter ndtLeafSize submap)).1,
      (regNDT (flattenAndTransform initial pc) (voxelFilter ndtLeafSize submap)).2,
      ?_, rfl⟩
    rfl

/-- C9 counterexample: the closest-point fine aligner called with a null
output pointer does not abort on a fatal check — the source performs no null
check there, and the eventual write through the null pointer is undefined
behavior, after registration has already run. -/
theorem null_check_counterexample :
    matchFineICP (fun _ _ => ((⟨0, 0, 0⟩ : Rigid2d), 0)) (fun _ l => l) true
        (⟨0, 0, 0⟩ : Rigid2d) [] [] ≠
      (MatchOutcome.fatalCheck : MatchOutcome (ℝ × Rigid2d)) := by
  intro h
  have hub : matchFineICP (fun _ _ => ((⟨0, 0, 0⟩ : Rigid2d), 0)) (fun _ l => l)
      true (⟨0, 0, 0⟩ : Rigid2d) [] [] =
      (MatchOutcome.undefinedBehavior : MatchOutcome (ℝ × Rigid2d)) := rfl
  rw [hub] at h
  exact MatchOutcome.noConfusion h

/-- C9 amended: only the exhaustive `Match` treats a null output pose
pointer as a fatal check, aborting before any result is computed; the two
fine-aligner variants perform no null check at all and instead hit undefined
behavior when writing the result through the null pointer after registration
has run. -/
theorem null_output_pointer_behavior :
    (∀ (opts : Options) (initial : Rigid2d) (sp : SearchParameters)
        (discrete_scans : List DiscreteScan2D) (grid : GridModel),
      matchExhaustive opts true initial sp discrete_scans grid = .fatalCheck) ∧
    (∀ (reg : PointCloud → PointCloud → Rigid2d × ℝ)
        (voxel : ℝ → PointCloud → PointCloud) (initial : Rigid2d)
        (pc submap : PointCloud),
      matchFineICP reg voxel true initial pc submap = .undefinedBehavior) ∧
    (∀ (reg : PointCloud → PointCloud → Rigid2d × ℝ)
        (voxel : ℝ → PointCloud → PointCloud) (initial : Rigid2d)
        (pc submap : PointCloud),
      matchFineNDT reg voxel true initial pc submap = .undefinedBehavior) := by
  refine ⟨fun opts initial sp ds grid => ?_,
    fun reg voxel initial pc submap => ?_,
    fun reg voxel initial pc submap => ?_⟩
  · rw [matchExhaustive]
    rfl
  · rfl
  · rfl

end Carto
